import Mathlib

/-!
Shallow embedding of `src/main.rs` of the contrast-checker repository.

Rust strings are modelled as `List Char`; `str::len` (a UTF-8 byte count)
is modelled by `utf8Len`, summing the UTF-8 size of each character.
Machine floats (`f32`) are modelled as real numbers; the `u8` channel
values are modelled as `Nat` (every intermediate fits in 8 bits, which we
prove where it matters).  A Rust `panic!` / `.unwrap()` on an error value
is modelled by the dedicated `ParseResult.panic` constructor.
-/

/-- Result of a Rust function returning `Result<α, ε>` whose execution may
also abort: `ok`/`err` mirror the `Result` constructors and `panic` marks
an `unwrap` of a `None`/`Err` value (program abort). -/
inductive ParseResult (ε α : Type) where
  | ok (a : α)
  | err (e : ε)
  | panic
  deriving DecidableEq, Repr

/-- The `enum HexToDecError` from main.rs. -/
inductive HexToDecError where
  | RightDigitInvalid
  | LeftDigitInvalid
  | LeftDigitOutOfRange
  | RightDigitOutOfRange
  | InputLengthOutOfRange
  deriving DecidableEq, Repr

/-- The `enum ColorFromHexError` from main.rs. -/
inductive ColorFromHexError where
  | InputIsEmpty
  | InputIsNotAscii
  | InvalidInputLength
  deriving DecidableEq, Repr

/-- UTF-8 byte size of one character, as Rust `char::len_utf8`. -/
def charUtf8Size (c : Char) : Nat :=
  if c.toNat < 0x80 then 1
  else if c.toNat < 0x800 then 2
  else if c.toNat < 0x10000 then 3
  else 4

/-- Rust `str::len` on the modelled string: its UTF-8 byte length. -/
def utf8Len (s : List Char) : Nat :=
  (s.map charUtf8Size).sum

/-- Rust `char::to_digit(16)`: `0-9`, `a-f`, `A-F` succeed; any other
character (including `g`..`z`, whose alphabetic value would be ≥ 16)
returns `none`. -/
def charToDigit16 (c : Char) : Option Nat :=
  if 48 ≤ c.toNat ∧ c.toNat ≤ 57 then some (c.toNat - 48)
  else if 97 ≤ c.toNat ∧ c.toNat ≤ 102 then some (c.toNat - 97 + 10)
  else if 65 ≤ c.toNat ∧ c.toNat ≤ 70 then some (c.toNat - 65 + 10)
  else none

/-- The function `fn hex_to_dec(hex: &str) -> Result<u8, HexToDecError>` from main.rs.

The length guard compares the *byte* length with 2, after which the code
unwraps two `chars.next()` calls: a single two-byte character passes the
guard but makes the second unwrap abort, hence the `panic` branches.
The final `u8` arithmetic `left*16 + right` cannot overflow because both
nibbles were checked `≤ 15`. -/
def hex_to_dec (hex : List Char) : ParseResult HexToDecError Nat :=
  if utf8Len hex ≠ 2 then .err .InputLengthOutOfRange
  else
    match hex with
    | [] => .panic
    | [_] => .panic
    | left :: right :: _ =>
      match charToDigit16 left with
      | none => .err .LeftDigitInvalid
      | some left_value =>
        match charToDigit16 right with
        | none => .err .RightDigitInvalid
        | some right_value =>
          if 15 < left_value then .err .LeftDigitOutOfRange
          else if 15 < right_value then .err .RightDigitOutOfRange
          else .ok (left_value * 16 + right_value)

/-- Rust `char::is_whitespace`, restricted to the ASCII range: the code
only trims strings that already passed the `is_ascii` check, and the
ASCII members of the Unicode `White_Space` property are exactly
tab, LF, vertical tab, form feed, CR and space. -/
def isRustWhitespace (c : Char) : Bool :=
  c.toNat = 9 ∨ c.toNat = 10 ∨ c.toNat = 11 ∨ c.toNat = 12 ∨ c.toNat = 13 ∨ c.toNat = 32

/-- Rust `str::to_lowercase`, restricted to ASCII input (the code applies
it only after the `is_ascii` check succeeded): `A`-`Z` map to `a`-`z`,
everything else is unchanged. -/
def asciiToLower (c : Char) : Char :=
  if 65 ≤ c.toNat ∧ c.toNat ≤ 90 then Char.ofNat (c.toNat + 32) else c

/-- Rust `str::is_ascii`: every character is in the ASCII range. -/
def isAsciiStr (s : List Char) : Bool :=
  s.all (fun c => c.toNat ≤ 127)

/-- Rust `str::trim`: drop whitespace from both ends. -/
def trimStr (s : List Char) : List Char :=
  ((s.dropWhile isRustWhitespace).reverse.dropWhile isRustWhitespace).reverse

/-- The string-processing and channel-decoding part of
`Color::from_hex` from main.rs, returning the three decoded `u8`
channel values `(red, green, blue)`; the enclosing `Color` value is
built from these by `Color.from_hex` below (the Rust code wraps each in
`f32::from`).

Faithfulness notes on the byte-level string operations: after the
`is_ascii` check every character occupies one byte, so the byte-index
slices `[0..2]`, `[2..4]`, `[4..]`, the byte length `len()` and the
`#`-strip `[1..]` coincide with the character-level `take`/`drop`/
`length`/`tail` used here.  The three `hex_to_dec(..).unwrap()` calls
abort on any non-`Ok` result, hence the `panic` catch-all. -/
def from_hex_bytes (hex : List Char) : ParseResult ColorFromHexError (Nat × Nat × Nat) :=
  if hex = [] then .err .InputIsEmpty
  else if ¬ isAsciiStr hex then .err .InputIsNotAscii
  else
    let lowercase := hex.map asciiToLower
    let trimmed_input := trimStr lowercase
    -- Only allow input like RRGGBB or #RRGGBB
    if utf8Len trimmed_input < 6 ∨ 7 < utf8Len trimmed_input then
      .err .InvalidInputLength
    else
      let stripped := if trimmed_input.head? = some '#' then trimmed_input.tail
                      else trimmed_input
      let red_hex := stripped.take 2
      let green_hex := (stripped.drop 2).take 2
      let blue_hex := stripped.drop 4
      match hex_to_dec red_hex, hex_to_dec green_hex, hex_to_dec blue_hex with
      | .ok r, .ok g, .ok b => .ok (r, g, b)
      | _, _, _ => .panic

/-- The `struct Color` from main.rs: three `f32` channels, modelled as reals. -/
structure Color where
  red : ℝ
  green : ℝ
  blue : ℝ

/-- Constructor `Color::new(r, g, b: u8)`: store the channels as floats. -/
def Color.new (r g b : Nat) : Color :=
  ⟨(r : ℝ), (g : ℝ), (b : ℝ)⟩

/-- Lift the decoded channel bytes into the `Color` construction
`Color { red: f32::from(..), .. }` performed by `from_hex`. -/
def castResult (p : ParseResult ColorFromHexError (Nat × Nat × Nat)) :
    ParseResult ColorFromHexError Color :=
  match p with
  | .ok (r, g, b) => .ok ⟨(r : ℝ), (g : ℝ), (b : ℝ)⟩
  | .err e => .err e
  | .panic => .panic

/-- The constructor `Color::from_hex(hex: &str) -> Result<Color, ColorFromHexError>`
from main.rs. -/
def Color.from_hex (hex : List Char) : ParseResult ColorFromHexError Color :=
  castResult (from_hex_bytes hex)

noncomputable section

/-- Method `Color::normalize`: divide every channel by 255.0, producing a new
`Color`. -/
def Color.normalize (c : Color) : Color :=
  ⟨c.red / 255, c.green / 255, c.blue / 255⟩

/-- The function `fn srgb_component_to_cie_xyz(normalized_component: f32) -> f32`
from main.rs: the sRGB inverse transfer function; `powf(2.4)` is
modelled by the real power. -/
def srgb_component_to_cie_xyz (normalized_component : ℝ) : ℝ :=
  if normalized_component ≤ 0.04045 then normalized_component / 12.92
  else ((normalized_component + 0.055) / 1.055) ^ (2.4 : ℝ)

/-- The function `fn relative_luminance(color: &Color) -> f32` from main.rs. -/
def relative_luminance (color : Color) : ℝ :=
  let normalized_color := color.normalize
  0.2126 * srgb_component_to_cie_xyz normalized_color.red
    + 0.7152 * srgb_component_to_cie_xyz normalized_color.green
    + 0.0722 * srgb_component_to_cie_xyz normalized_color.blue

/-- The function `fn contrast_ratio(foreground: &Color, background: &Color) -> f32`
from main.rs. -/
def contrast_ratio (foreground background : Color) : ℝ :=
  let foreground_luminance := relative_luminance foreground
  let background_luminance := relative_luminance background
  if foreground_luminance > background_luminance then
    (foreground_luminance + 0.05) / (background_luminance + 0.05)
  else
    (background_luminance + 0.05) / (foreground_luminance + 0.05)

end

/-- A color whose channels were produced from valid 8-bit values lies in
the documented channel range. -/
def Color.inRange (c : Color) : Prop :=
  0 ≤ c.red ∧ c.red ≤ 255 ∧ 0 ≤ c.green ∧ c.green ≤ 255 ∧ 0 ≤ c.blue ∧ c.blue ≤ 255

/-- A character that is a hexadecimal digit: `0`-`9`, `a`-`f` or `A`-`F`
(stated on the character codes: 48-57, 97-102, 65-70). -/
def isHexDigitChar (c : Char) : Prop :=
  (48 ≤ c.toNat ∧ c.toNat ≤ 57) ∨ (97 ≤ c.toNat ∧ c.toNat ≤ 102)
    ∨ (65 ≤ c.toNat ∧ c.toNat ≤ 70)

instance (c : Char) : Decidable (isHexDigitChar c) := by
  unfold isHexDigitChar; infer_instance

/-- The numeric value of a hexadecimal digit character (0 for
non-digits). -/
def hexCharValue (c : Char) : Nat :=
  if 48 ≤ c.toNat ∧ c.toNat ≤ 57 then c.toNat - 48
  else if 97 ≤ c.toNat ∧ c.toNat ≤ 102 then c.toNat - 87
  else if 65 ≤ c.toNat ∧ c.toNat ≤ 70 then c.toNat - 55

  else 0
/-! ### Lemmas about the sRGB transfer function and luminance -/

theorem srgb_nonneg {x : ℝ} (hx : 0 ≤ x) : 0 ≤ srgb_component_to_cie_xyz x := by
  unfold srgb_component_to_cie_xyz
  by_cases h : x ≤ 0.04045
  · rw [if_pos h]
    exact div_nonneg hx (by norm_num)
  · rw [if_neg h]
    exact Real.rpow_nonneg (div_nonneg (by linarith) (by norm_num)) _

theorem srgb_le_one {x : ℝ} (hx : x ≤ 1) : srgb_component_to_cie_xyz x ≤ 1 := by
  unfold srgb_component_to_cie_xyz
  by_cases h : x ≤ 0.04045
  · rw [if_pos h, div_le_one (by norm_num)]
    linarith
  · rw [if_neg h]
    push_neg at h
    apply Real.rpow_le_one (div_nonneg (by linarith) (by norm_num))
    · rw [div_le_one (by norm_num)]
      linarith
    · norm_num

theorem srgb_zero : srgb_component_to_cie_xyz 0 = 0 := by
  unfold srgb_component_to_cie_xyz
  rw [if_pos (by norm_num)]
  norm_num

theorem srgb_one : srgb_component_to_cie_xyz 1 = 1 := by
  unfold srgb_component_to_cie_xyz
  rw [if_neg (by norm_num)]
  have h : ((1 : ℝ) + 0.055) / 1.055 = 1 := by norm_num
  rw [h, Real.one_rpow]

theorem relative_luminance_eq (c : Color) :
    relative_luminance c =
      0.2126 * srgb_component_to_cie_xyz (c.red / 255)
        + 0.7152 * srgb_component_to_cie_xyz (c.green / 255)
        + 0.0722 * srgb_component_to_cie_xyz (c.blue / 255) := rfl

theorem relative_luminance_nonneg {c : Color} (h : c.inRange) :
    0 ≤ relative_luminance c := by
  obtain ⟨h1, _, h3, _, h5, _⟩ := h
  rw [relative_luminance_eq]
  have r := srgb_nonneg (div_nonneg h1 (by norm_num : (0:ℝ) ≤ 255))
  have g := srgb_nonneg (div_nonneg h3 (by norm_num : (0:ℝ) ≤ 255))
  have b := srgb_nonneg (div_nonneg h5 (by norm_num : (0:ℝ) ≤ 255))
  have hr := mul_nonneg (by norm_num : (0:ℝ) ≤ 0.2126) r
  have hg := mul_nonneg (by norm_num : (0:ℝ) ≤ 0.7152) g
  have hb := mul_nonneg (by norm_num : (0:ℝ) ≤ 0.0722) b
  linarith

theorem relative_luminance_le_one {c : Color} (h : c.inRange) :
    relative_luminance c ≤ 1 := by
  obtain ⟨_, h2, _, h4, _, h6⟩ := h
  rw [relative_luminance_eq]
  have r := @srgb_le_one (c.red / 255)
    (by rw [div_le_one (by norm_num : (0:ℝ) < 255)]; exact h2)
  have g := @srgb_le_one (c.green / 255)
    (by rw [div_le_one (by norm_num : (0:ℝ) < 255)]; exact h4)
  have b := @srgb_le_one (c.blue / 255)
    (by rw [div_le_one (by norm_num : (0:ℝ) < 255)]; exact h6)
  have hr := mul_le_of_le_one_right (by norm_num : (0:ℝ) ≤ 0.2126) r
  have hg := mul_le_of_le_one_right (by norm_num : (0:ℝ) ≤ 0.7152) g
  have hb := mul_le_of_le_one_right (by norm_num : (0:ℝ) ≤ 0.0722) b
  linarith

theorem relative_luminance_black : relative_luminance (Color.new 0 0 0) = 0 := by
  rw [relative_luminance_eq]
  norm_num [Color.new, srgb_zero]

theorem relative_luminance_white :
    relative_luminance (Color.new 255 255 255) = 1 := by
  rw [relative_luminance_eq]
  norm_num [Color.new, srgb_one]

theorem contrast_ratio_eq (a b : Color) :
    contrast_ratio a b =
      if relative_luminance a > relative_luminance b then
        (relative_luminance a + 0.05) / (relative_luminance b + 0.05)
      else
        (relative_luminance b + 0.05) / (relative_luminance a + 0.05) := rfl

/-! ### Claim theorems: contrast-ratio and luminance properties -/

/-- C3: for every pair of colors `a` and `b`,
`contrast_ratio a b = contrast_ratio b a` — the result depends only on
the max/min selection of the two luminances, not on argument order. -/
theorem contrast_ratio_symm : ∀ a b : Color, contrast_ratio a b = contrast_ratio b a := by
  intro a b
  rw [contrast_ratio_eq, contrast_ratio_eq]
  rcases lt_trichotomy (relative_luminance a) (relative_luminance b) with h | h | h
  · rw [if_neg (lt_asymm h), if_pos h]
  · rw [h, if_neg (lt_irrefl _)]
  · rw [if_pos h, if_neg (lt_asymm h)]

/-- C4: for every pair of colors whose channels lie in [0, 255], the
contrast ratio lies in [1, 21]: the larger luminance plus 0.05 is
divided by the smaller luminance plus 0.05. -/
theorem contrast_ratio_bounds :
    ∀ a b : Color, a.inRange → b.inRange →
      1 ≤ contrast_ratio a b ∧ contrast_ratio a b ≤ 21 := by
  intro a b ha hb
  have la0 := relative_luminance_nonneg ha
  have la1 := relative_luminance_le_one ha
  have lb0 := relative_luminance_nonneg hb
  have lb1 := relative_luminance_le_one hb
  rw [contrast_ratio_eq]
  by_cases h : relative_luminance a > relative_luminance b
  · rw [if_pos h]
    constructor
    · rw [le_div_iff₀ (by linarith)]
      linarith
    · rw [div_le_iff₀ (by linarith)]
      linarith
  · rw [if_neg h]
    push_neg at h
    constructor
    · rw [le_div_iff₀ (by linarith)]
      linarith
    · rw [div_le_iff₀ (by linarith)]
      linarith

/-- Witness for C4 at white and black. -/
theorem contrast_ratio_bounds_witness :
    1 ≤ contrast_ratio (Color.new 255 255 255) (Color.new 0 0 0)
      ∧ contrast_ratio (Color.new 255 255 255) (Color.new 0 0 0) ≤ 21 :=
  contrast_ratio_bounds (Color.new 255 255 255) (Color.new 0 0 0)
    (by norm_num [Color.new, Color.inRange]) (by norm_num [Color.new, Color.inRange])

/-- C7: relative luminance of a color with channels in [0, 255] lies in
[0, 1]; it is exactly 0 at channels (0,0,0) and (in the real-number model
of `f32`) exactly 1 at channels (255,255,255). -/
theorem relative_luminance_bounds :
    (∀ c : Color, c.inRange → 0 ≤ relative_luminance c ∧ relative_luminance c ≤ 1)
      ∧ relative_luminance (Color.new 0 0 0) = 0
      ∧ relative_luminance (Color.new 255 255 255) = 1 :=
  ⟨fun _ h => ⟨relative_luminance_nonneg h, relative_luminance_le_one h⟩,
    relative_luminance_black, relative_luminance_white⟩

/-- Witness for C7 at the color (242, 108, 167) used by `main`. -/
theorem relative_luminance_bounds_witness :
    0 ≤ relative_luminance (Color.new 242 108 167)
      ∧ relative_luminance (Color.new 242 108 167) ≤ 1 :=
  relative_luminance_bounds.1 (Color.new 242 108 167)
    (by norm_num [Color.new, Color.inRange])

/-- C9: holding the lower-luminance color `b` fixed, a color `a'` of
strictly larger luminance than `a` has a strictly larger contrast ratio
against `b` (colors taken in the documented [0, 255] channel range). -/
theorem contrast_ratio_strict_mono :
    ∀ a a' b : Color, a.inRange → a'.inRange → b.inRange →
      relative_luminance b ≤ relative_luminance a →
      relative_luminance a < relative_luminance a' →
      contrast_ratio a b < contrast_ratio a' b := by
  intro a a' b _ _ hb hba haa
  have lb0 := relative_luminance_nonneg hb
  have h1 : relative_luminance b < relative_luminance a' := lt_of_le_of_lt hba haa
  rw [contrast_ratio_eq, contrast_ratio_eq, if_pos h1]
  rcases eq_or_lt_of_le hba with heq | hlt
  · rw [if_neg (by rw [heq]; exact lt_irrefl _), ← heq]
    rw [div_self (by linarith : relative_luminance b + 0.05 ≠ 0)]
    rw [one_lt_div (by linarith)]
    linarith
  · rw [if_pos hlt, div_lt_div_iff_of_pos_right (by linarith)]
    linarith

/-- Witness for C9 with a = b = black and a' = white. -/
theorem contrast_ratio_strict_mono_witness :
    contrast_ratio (Color.new 0 0 0) (Color.new 0 0 0)
      < contrast_ratio (Color.new 255 255 255) (Color.new 0 0 0) :=
  contrast_ratio_strict_mono (Color.new 0 0 0) (Color.new 255 255 255) (Color.new 0 0 0)
    (by norm_num [Color.new, Color.inRange])
    (by norm_num [Color.new, Color.inRange])
    (by norm_num [Color.new, Color.inRange])
    (le_refl _)
    (by rw [relative_luminance_black, relative_luminance_white]; norm_num)

/-- C10: the contrast ratio of a color (channels in [0, 255]) with itself
is exactly 1: both luminances are equal, so the else branch divides the
positive value `luminance + 0.05` by itself. -/
theorem contrast_ratio_self :
    ∀ c : Color, c.inRange → contrast_ratio c c = 1 := by
  intro c hc
  have h0 := relative_luminance_nonneg hc
  rw [contrast_ratio_eq, if_neg (lt_irrefl _)]
  exact div_self (by linarith)

/-- Witness for C10 at white. -/
theorem contrast_ratio_self_witness :
    contrast_ratio (Color.new 255 255 255) (Color.new 255 255 255) = 1 :=
  contrast_ratio_self (Color.new 255 255 255) (by norm_num [Color.new, Color.inRange])

/-! ### Lemmas about hexadecimal characters and the hex decoder -/

theorem hexDigit_ascii {c : Char} (h : isHexDigitChar c) : c.toNat ≤ 127 := by
  rcases h with h | h | h <;> omega

theorem hexCharValue_le_15 (c : Char) : hexCharValue c ≤ 15 := by
  unfold hexCharValue
  repeat' split
  all_goals omega

theorem charUtf8Size_ascii {c : Char} (h : c.toNat ≤ 127) : charUtf8Size c = 1 := by
  unfold charUtf8Size
  rw [if_pos (by omega)]

theorem charToDigit16_hex {c : Char} (h : isHexDigitChar c) :
    charToDigit16 c = some (hexCharValue c) := by
  unfold charToDigit16 hexCharValue
  rcases h with h | h | h
  · rw [if_pos h, if_pos h]
  · rw [if_neg (by omega), if_pos h, if_neg (by omega), if_pos h]
    exact congrArg some (by omega)
  · rw [if_neg (by omega), if_neg (by omega), if_pos h,
      if_neg (by omega), if_neg (by omega), if_pos h]
    exact congrArg some (by omega)

theorem hex_to_dec_pair {c₁ c₂ : Char} (h₁ : isHexDigitChar c₁) (h₂ : isHexDigitChar c₂) :
    hex_to_dec [c₁, c₂] = .ok (hexCharValue c₁ * 16 + hexCharValue c₂) := by
  have k₁ : ¬ 15 < hexCharValue c₁ := not_lt.mpr (hexCharValue_le_15 c₁)
  have k₂ : ¬ 15 < hexCharValue c₂ := not_lt.mpr (hexCharValue_le_15 c₂)
  have hlen : utf8Len [c₁, c₂] = 2 := by
    simp [utf8Len, charUtf8Size_ascii (hexDigit_ascii h₁),
      charUtf8Size_ascii (hexDigit_ascii h₂)]
  unfold hex_to_dec
  rw [if_neg (by simp [hlen])]
  simp only [charToDigit16_hex h₁, charToDigit16_hex h₂]
  rw [if_neg k₁, if_neg k₂]

theorem asciiToLower_hex {c : Char} (h : isHexDigitChar c) :
    isHexDigitChar (asciiToLower c) ∧ hexCharValue (asciiToLower c) = hexCharValue c := by
  rcases h with h | h | h
  · unfold asciiToLower
    rw [if_neg (by omega)]
    exact ⟨Or.inl h, rfl⟩
  · unfold asciiToLower
    rw [if_neg (by omega)]
    exact ⟨Or.inr (Or.inl h), rfl⟩
  · obtain ⟨h1, h2⟩ := h
    have hc : Char.ofNat c.toNat = c := Char.ofNat_toNat c
    have hcases : c = 'A' ∨ c = 'B' ∨ c = 'C' ∨ c = 'D' ∨ c = 'E' ∨ c = 'F' := by
      have e : c.toNat = 65 ∨ c.toNat = 66 ∨ c.toNat = 67 ∨ c.toNat = 68
          ∨ c.toNat = 69 ∨ c.toNat = 70 := by omega
      rcases e with e | e | e | e | e | e
      · left; rw [← hc, e]
      · right; left; rw [← hc, e]
      · right; right; left; rw [← hc, e]
      · right; right; right; left; rw [← hc, e]
      · right; right; right; right; left; rw [← hc, e]
      · right; right; right; right; right; rw [← hc, e]
    have hval : (asciiToLower c).toNat = c.toNat + 32 := by
      rcases hcases with e | e | e | e | e | e <;> subst e <;> decide
    have n1 : ¬(48 ≤ (asciiToLower c).toNat ∧ (asciiToLower c).toNat ≤ 57) := by omega
    have p2 : 97 ≤ (asciiToLower c).toNat ∧ (asciiToLower c).toNat ≤ 102 := by omega
    have n3 : ¬(48 ≤ c.toNat ∧ c.toNat ≤ 57) := by omega
    have n4 : ¬(97 ≤ c.toNat ∧ c.toNat ≤ 102) := by omega
    refine ⟨Or.inr (Or.inl p2), ?_⟩
    unfold hexCharValue
    rw [if_neg n1, if_pos p2, if_neg n3, if_neg n4, if_pos ⟨h1, h2⟩]
    omega

theorem hexDigit_not_ws {c : Char} (h : isHexDigitChar c) : isRustWhitespace c = false := by
  have h48 : 48 ≤ c.toNat := by rcases h with h | h | h <;> omega
  simp only [isRustWhitespace, decide_eq_false_iff_not]
  omega

theorem hexDigit_ne_hash {c : Char} (h : isHexDigitChar c) : c ≠ '#' := by
  intro e
  subst e
  revert h
  decide

theorem trimStr_eq_self {l : List Char} (h : ∀ c ∈ l, isRustWhitespace c = false) :
    trimStr l = l := by
  unfold trimStr
  have h1 : l.dropWhile isRustWhitespace = l := by
    cases l with
    | nil => rfl
    | cons a as =>
      have ha := h a (List.mem_cons_self a as)
      rw [List.dropWhile_cons, if_neg (by simp [ha])]
  rw [h1]
  have h2 : l.reverse.dropWhile isRustWhitespace = l.reverse := by
    cases hr : l.reverse with
    | nil => rfl
    | cons a as =>
      have ha : a ∈ l := by
        have : a ∈ l.reverse := by rw [hr]; exact List.mem_cons_self a as
        simpa using this
      rw [List.dropWhile_cons, if_neg (by simp [h a ha])]
  rw [h2, List.reverse_reverse]

theorem take_two (a b : Char) (l : List Char) : (a :: b :: l).take 2 = [a, b] := rfl

theorem drop_two (a b : Char) (l : List Char) : (a :: b :: l).drop 2 = l := rfl

theorem drop_four (a b c d : Char) (l : List Char) : (a :: b :: c :: d :: l).drop 4 = l := rfl

theorem from_hex_bytes_bare {d₁ d₂ d₃ d₄ d₅ d₆ : Char}
    (h₁ : isHexDigitChar d₁) (h₂ : isHexDigitChar d₂) (h₃ : isHexDigitChar d₃)
    (h₄ : isHexDigitChar d₄) (h₅ : isHexDigitChar d₅) (h₆ : isHexDigitChar d₆) :
    from_hex_bytes [d₁, d₂, d₃, d₄, d₅, d₆]
      = .ok (hexCharValue d₁ * 16 + hexCharValue d₂,
             hexCharValue d₃ * 16 + hexCharValue d₄,
             hexCharValue d₅ * 16 + hexCharValue d₆) := by
  have he₁ := (asciiToLower_hex h₁).1
  have he₂ := (asciiToLower_hex h₂).1
  have he₃ := (asciiToLower_hex h₃).1
  have he₄ := (asciiToLower_hex h₄).1
  have he₅ := (asciiToLower_hex h₅).1
  have he₆ := (asciiToLower_hex h₆).1
  have hascii : isAsciiStr [d₁, d₂, d₃, d₄, d₅, d₆] = true := by
    simp [isAsciiStr, hexDigit_ascii h₁, hexDigit_ascii h₂, hexDigit_ascii h₃,
      hexDigit_ascii h₄, hexDigit_ascii h₅, hexDigit_ascii h₆]
  have hws : ∀ c ∈ [asciiToLower d₁, asciiToLower d₂, asciiToLower d₃,
      asciiToLower d₄, asciiToLower d₅, asciiToLower d₆], isRustWhitespace c = false := by
    intro c hc
    simp only [List.mem_cons, List.not_mem_nil, or_false] at hc
    rcases hc with rfl | rfl | rfl | rfl | rfl | rfl
    · exact hexDigit_not_ws he₁
    · exact hexDigit_not_ws he₂
    · exact hexDigit_not_ws he₃
    · exact hexDigit_not_ws he₄
    · exact hexDigit_not_ws he₅
    · exact hexDigit_not_ws he₆
  have hlen : utf8Len [asciiToLower d₁, asciiToLower d₂, asciiToLower d₃,
      asciiToLower d₄, asciiToLower d₅, asciiToLower d₆] = 6 := by
    simp [utf8Len, charUtf8Size_ascii (hexDigit_ascii he₁),
      charUtf8Size_ascii (hexDigit_ascii he₂), charUtf8Size_ascii (hexDigit_ascii he₃),
      charUtf8Size_ascii (hexDigit_ascii he₄), charUtf8Size_ascii (hexDigit_ascii he₅),
      charUtf8Size_ascii (hexDigit_ascii he₆)]
  unfold from_hex_bytes
  rw [if_neg (by simp), if_neg (by simp [hascii])]
  simp only [List.map_cons, List.map_nil]
  rw [trimStr_eq_self hws]
  rw [if_neg (by rw [hlen]; omega)]
  rw [if_neg (by simp only [List.head?_cons, Option.some.injEq]; exact hexDigit_ne_hash he₁)]
  rw [take_two, drop_two, take_two, drop_four]
  rw [hex_to_dec_pair he₁ he₂, hex_to_dec_pair he₃ he₄, hex_to_dec_pair he₅ he₆]
  rw [(asciiToLower_hex h₁).2, (asciiToLower_hex h₂).2, (asciiToLower_hex h₃).2,
    (asciiToLower_hex h₄).2, (asciiToLower_hex h₅).2, (asciiToLower_hex h₆).2]

theorem from_hex_bytes_hash {d₁ d₂ d₃ d₄ d₅ d₆ : Char}
    (h₁ : isHexDigitChar d₁) (h₂ : isHexDigitChar d₂) (h₃ : isHexDigitChar d₃)
    (h₄ : isHexDigitChar d₄) (h₅ : isHexDigitChar d₅) (h₆ : isHexDigitChar d₆) :
    from_hex_bytes ('#' :: [d₁, d₂, d₃, d₄, d₅, d₆])
      = .ok (hexCharValue d₁ * 16 + hexCharValue d₂,
             hexCharValue d₃ * 16 + hexCharValue d₄,
             hexCharValue d₅ * 16 + hexCharValue d₆) := by
  have he₁ := (asciiToLower_hex h₁).1
  have he₂ := (asciiToLower_hex h₂).1
  have he₃ := (asciiToLower_hex h₃).1
  have he₄ := (asciiToLower_hex h₄).1
  have he₅ := (asciiToLower_hex h₅).1
  have he₆ := (asciiToLower_hex h₆).1
  have hascii : isAsciiStr ('#' :: [d₁, d₂, d₃, d₄, d₅, d₆]) = true := by
    simp [isAsciiStr, hexDigit_ascii h₁, hexDigit_ascii h₂, hexDigit_ascii h₃,
      hexDigit_ascii h₄, hexDigit_ascii h₅, hexDigit_ascii h₆]
  have hlow : asciiToLower '#' = '#' := by decide
  have hws : ∀ c ∈ ('#' :: [asciiToLower d₁, asciiToLower d₂, asciiToLower d₃,
      asciiToLower d₄, asciiToLower d₅, asciiToLower d₆]), isRustWhitespace c = false := by
    intro c hc
    simp only [List.mem_cons, List.not_mem_nil, or_false] at hc
    rcases hc with rfl | rfl | rfl | rfl | rfl | rfl | rfl
    · decide
    · exact hexDigit_not_ws he₁
    · exact hexDigit_not_ws he₂
    · exact hexDigit_not_ws he₃
    · exact hexDigit_not_ws he₄
    · exact hexDigit_not_ws he₅
    · exact hexDigit_not_ws he₆
  have hlen : utf8Len ('#' :: [asciiToLower d₁, asciiToLower d₂, asciiToLower d₃,
      asciiToLower d₄, asciiToLower d₅, asciiToLower d₆]) = 7 := by
    have hsz : charUtf8Size '#' = 1 := by decide
    simp [utf8Len, hsz, charUtf8Size_ascii (hexDigit_ascii he₁),
      charUtf8Size_ascii (hexDigit_ascii he₂), charUtf8Size_ascii (hexDigit_ascii he₃),
      charUtf8Size_ascii (hexDigit_ascii he₄), charUtf8Size_ascii (hexDigit_ascii he₅),
      charUtf8Size_ascii (hexDigit_ascii he₆)]
  unfold from_hex_bytes
  rw [if_neg (by simp), if_neg (by simp [hascii])]
  simp only [List.map_cons, List.map_nil, hlow]
  rw [trimStr_eq_self hws]
  rw [if_neg (by rw [hlen]; omega)]
  rw [if_pos (by simp only [List.head?_cons])]
  rw [List.tail_cons]
  rw [take_two, drop_two, take_two, drop_four]
  rw [hex_to_dec_pair he₁ he₂, hex_to_dec_pair he₃ he₄, hex_to_dec_pair he₅ he₆]
  rw [(asciiToLower_hex h₁).2, (asciiToLower_hex h₂).2, (asciiToLower_hex h₃).2,
    (asciiToLower_hex h₄).2, (asciiToLower_hex h₅).2, (asciiToLower_hex h₆).2]

/-! ### Claim theorems: parsing and error handling -/

/-- C5: for every 2-character input whose two characters are both
hexadecimal digits, `hex_to_dec` returns `Ok` of high*16 + low, where
high is the value of the first character and low the value of the
second. -/
theorem hex_to_dec_decodes_hex_pairs :
    ∀ c₁ c₂ : Char, isHexDigitChar c₁ → isHexDigitChar c₂ →
      hex_to_dec [c₁, c₂] = .ok (hexCharValue c₁ * 16 + hexCharValue c₂) :=
  fun _ _ h₁ h₂ => hex_to_dec_pair h₁ h₂

/-- Witness for C5: the string ff decodes to 255. -/
theorem hex_to_dec_decodes_hex_pairs_witness : hex_to_dec ['f', 'f'] = .ok 255 := by
  have h := hex_to_dec_decodes_hex_pairs 'f' 'f' (by decide) (by decide)
  rw [show hexCharValue 'f' * 16 + hexCharValue 'f' = 255 from by decide] at h
  exact h

/-- C6: `Color::from_hex` accepts the bare RRGGBB form and the #RRGGBB
form, assigning the first hex pair to red, the second to green and the
third to blue; the value of every digit is case-insensitive
(`hexCharValue` identifies `a`-`f` with `A`-`F`), and the # form parses
to exactly the same color as the bare form. -/
theorem from_hex_accepts_both_forms :
    ∀ d₁ d₂ d₃ d₄ d₅ d₆ : Char,
      isHexDigitChar d₁ → isHexDigitChar d₂ → isHexDigitChar d₃ →
      isHexDigitChar d₄ → isHexDigitChar d₅ → isHexDigitChar d₆ →
      Color.from_hex [d₁, d₂, d₃, d₄, d₅, d₆]
          = .ok (Color.new (hexCharValue d₁ * 16 + hexCharValue d₂)
              (hexCharValue d₃ * 16 + hexCharValue d₄)
              (hexCharValue d₅ * 16 + hexCharValue d₆))
        ∧ Color.from_hex ('#' :: [d₁, d₂, d₃, d₄, d₅, d₆])
          = Color.from_hex [d₁, d₂, d₃, d₄, d₅, d₆] := by
  intro d₁ d₂ d₃ d₄ d₅ d₆ h₁ h₂ h₃ h₄ h₅ h₆
  unfold Color.from_hex
  rw [from_hex_bytes_bare h₁ h₂ h₃ h₄ h₅ h₆, from_hex_bytes_hash h₁ h₂ h₃ h₄ h₅ h₆]
  exact ⟨rfl, rfl⟩

/-- Witness for C6: #FFFFFF gives channels (255,255,255), 000000 gives
(0,0,0), and #ffffff parses to the same color as #FFFFFF. -/
theorem from_hex_accepts_both_forms_witness :
    Color.from_hex ['#', 'F', 'F', 'F', 'F', 'F', 'F'] = .ok (Color.new 255 255 255)
      ∧ Color.from_hex ['0', '0', '0', '0', '0', '0'] = .ok (Color.new 0 0 0)
      ∧ Color.from_hex ['#', 'f', 'f', 'f', 'f', 'f', 'f']
          = Color.from_hex ['#', 'F', 'F', 'F', 'F', 'F', 'F'] := by
  have hF := from_hex_accepts_both_forms 'F' 'F' 'F' 'F' 'F' 'F'
    (by decide) (by decide) (by decide) (by decide) (by decide) (by decide)
  have h0 := from_hex_accepts_both_forms '0' '0' '0' '0' '0' '0'
    (by decide) (by decide) (by decide) (by decide) (by decide) (by decide)
  have hf := from_hex_accepts_both_forms 'f' 'f' 'f' 'f' 'f' 'f'
    (by decide) (by decide) (by decide) (by decide) (by decide) (by decide)
  refine ⟨?_, ?_, ?_⟩
  · rw [hF.2, hF.1, show hexCharValue 'F' * 16 + hexCharValue 'F' = 255 from by decide]
  · rw [h0.1, show hexCharValue '0' * 16 + hexCharValue '0' = 0 from by decide]
  · rw [hf.2, hF.2, hf.1, hF.1,
      show hexCharValue 'f' * 16 + hexCharValue 'f' = 255 from by decide,
      show hexCharValue 'F' * 16 + hexCharValue 'F' = 255 from by decide]

/-- C8: `Color::from_hex` checks its input in the order: empty check
first (`InputIsEmpty` for the empty string), then the ASCII check
(`InputIsNotAscii` for any non-ASCII input, regardless of its length),
and only then the length check (`InvalidInputLength` when the trimmed,
case-folded length is outside 6..7). -/
theorem from_hex_validation_order :
    ∀ hex : List Char,
      (hex = [] → Color.from_hex hex = .err .InputIsEmpty)
      ∧ (hex ≠ [] → isAsciiStr hex = false → Color.from_hex hex = .err .InputIsNotAscii)
      ∧ (hex ≠ [] → isAsciiStr hex = true →
          (utf8Len (trimStr (hex.map asciiToLower)) < 6
            ∨ 7 < utf8Len (trimStr (hex.map asciiToLower))) →
          Color.from_hex hex = .err .InvalidInputLength) := by
  intro hex
  refine ⟨?_, ?_, ?_⟩
  · intro h
    subst h
    rfl
  · intro h1 h2
    unfold Color.from_hex from_hex_bytes
    rw [if_neg h1, if_pos (by simp [h2])]
    rfl
  · intro h1 h2 h3
    unfold Color.from_hex from_hex_bytes
    rw [if_neg h1, if_neg (by simp [h2])]
    rw [if_pos h3]
    rfl

/-- Witness for C8: a non-ASCII input of invalid length (one character)
fails with the non-ASCII error, not the length error. -/
theorem from_hex_validation_order_witness :
    Color.from_hex ['é'] = .err .InputIsNotAscii :=
  (from_hex_validation_order ['é']).2.1 (by decide) (by decide)

/-- C1 (failing behavior): when a channel substring of a well-formed-length
input fails hex decoding, `Color::from_hex` does not return a recoverable
error — the `unwrap` on the decode result aborts the program (modelled by
`panic`); `hex_to_dec` itself also aborts on a single two-byte character,
which passes its byte-length guard. -/
theorem from_hex_panics_on_invalid_hex :
    Color.from_hex ['z', 'z', 'z', 'z', 'z', 'z'] = .panic
      ∧ hex_to_dec ['é'] = .panic := by
  constructor
  · rw [Color.from_hex, show from_hex_bytes ['z', 'z', 'z', 'z', 'z', 'z'] = .panic from by decide]
    rfl
  · decide

/-- C2 (failing behavior): a 7-character input without a leading `#` and a
6-character input with a leading `#` both pass the `6 ≤ len ≤ 7` length
check, so instead of `InvalidInputLength` the blue channel is sliced with
the wrong width and the decode `unwrap` aborts the program. -/
theorem from_hex_wrong_shape_panics :
    Color.from_hex ['f', 'f', 'f', 'f', 'f', 'f', 'f'] = .panic
      ∧ Color.from_hex ['#', '0', '0', '0', '0', '0'] = .panic := by
  constructor
  · rw [Color.from_hex,
      show from_hex_bytes ['f', 'f', 'f', 'f', 'f', 'f', 'f'] = .panic from by decide]
    rfl
  · rw [Color.from_hex,
      show from_hex_bytes ['#', '0', '0', '0', '0', '0'] = .panic from by decide]
    rfl
